import Mathlib

/-!
Shallow embedding of the coffee-feed-generator sources
(`src/storage.ts`, `src/index.ts`, `src/timeline.ts`, `src/firehose.ts`).

Conventions of the embedding:

* JavaScript `Date` parsing (`new Date(s).getTime()`) is an external
  builtin, so it is passed in as a parameter `p : String → Option Int`:
  `some t` models a valid date with epoch-milliseconds `t`, and `none`
  models an Invalid Date (whose `getTime()` is `NaN`).  Every comparison
  in the source involving a possibly-`NaN` value is translated with the
  JavaScript semantics that any ordering comparison with `NaN` is false.
* JavaScript numbers that can be `NaN` are modelled as `Option Int`
  (`none` = `NaN`); numbers that are known integers are `Int`.
* On persistence: the lowdb `db.write()` call is side-effect-only; where
  a claim talks about persistence we record a `wrote : Bool` flag that is
  true exactly when the source calls `db.write()`.
-/

/-- The `location` field of a stored post (`storage.ts`, line 17). -/
structure GeoLocation where
  lat : String
  lng : String
deriving DecidableEq, Repr

/-- Structure `CoffeeBeanPost` (`storage.ts`, lines 6–18).  The `$type`
discriminator is called `type` here because `$` is not legal in a Lean
identifier. -/
structure CoffeeBeanPost where
  type : String
  uri : String
  cid : String
  createdAt : String
  text : String
  beanName : Option String := none
  origin : Option String := none
  roastLevel : Option String := none
  brewMethod : Option String := none
  rating : Option Int := none
  location : Option GeoLocation := none
deriving DecidableEq, Repr

/-- The filter predicate of `purgeOldPosts` (`storage.ts`, lines 44–47):
`new Date(post.createdAt) >= eighteenHoursAgo`.  When `createdAt` does
not parse, `getTime()` is `NaN` and the comparison is false, so the post
is dropped by the filter. -/
def keepPost (p : String → Option Int) (cutoff : Int) (post : CoffeeBeanPost) : Bool :=
  match p post.createdAt with
  | some t => cutoff ≤ t
  | none => false

/-- Function `purgeOldPosts` (`storage.ts`, lines 39–54): keep exactly the posts
whose parsed `createdAt` is at or after the cutoff (`now` minus the
18-hour retention window, precomputed by the caller). -/
def purgeOldPosts (p : String → Option Int) (cutoff : Int)
    (posts : List CoffeeBeanPost) : List CoffeeBeanPost :=
  posts.filter (keepPost p cutoff)

/-- Result of `addPost`: the returned boolean, the new store contents,
and whether `db.write()` was called. -/
structure AddResult where
  added : Bool
  posts : List CoffeeBeanPost
  wrote : Bool
deriving DecidableEq, Repr

/-- Function `addPost` (`storage.ts`, lines 57–69): find an existing post with the
same `uri`; if present return `false` without mutating or persisting,
else push the post and persist. -/
def addPost (posts : List CoffeeBeanPost) (post : CoffeeBeanPost) : AddResult :=
  match posts.find? (fun q => q.uri == post.uri) with
  | some _ => ⟨false, posts, false⟩
  | none => ⟨true, posts ++ [post], true⟩

/-- Function `getPostCount` (`storage.ts`, lines 82–84). -/
def getPostCount (posts : List CoffeeBeanPost) : Nat :=
  posts.length

/-- Function `clearPosts` (`storage.ts`, lines 87–90). -/
def clearPosts (_posts : List CoffeeBeanPost) : List CoffeeBeanPost :=
  []

/-! ### Feed assembly pipeline (`index.ts`, lines 28–60 and 80–90) -/

/-- The sort key of `sortByCreatedAt`: `new Date(x.createdAt).getTime()`.
An Invalid Date yields `NaN`, which makes the JavaScript comparator
inconsistent and the sort order of the engine unspecified, so every theorem
about the sort carries the hypothesis that all `createdAt` values parse;
under that hypothesis the `getD 0` default is never reached. -/
def jsKey (p : String → Option Int) (post : CoffeeBeanPost) : Int :=
  (p post.createdAt).getD 0

/-- The order realised by `[...].sort((a, b) => new Date(b.createdAt).getTime()
- new Date(a.createdAt).getTime())` (`index.ts`, lines 41–42) on
index-decorated posts: the comparator puts `a` before `b` when the
timestamp of `a` is larger, and ECMAScript sort is stable, so equal timestamps
keep their original relative index order. -/
def feedOrder (p : String → Option Int) (a b : Nat × CoffeeBeanPost) : Prop :=
  jsKey p b.2 < jsKey p a.2 ∨ (jsKey p a.2 = jsKey p b.2 ∧ a.1 ≤ b.1)

instance feedOrderDecidable (p : String → Option Int) : DecidableRel (feedOrder p) :=
  fun a b => by unfold feedOrder; exact inferInstance

instance feedOrderTotal (p : String → Option Int) :
    IsTotal (Nat × CoffeeBeanPost) (feedOrder p) :=
  ⟨by intro a b; unfold feedOrder; omega⟩

instance feedOrderTrans (p : String → Option Int) :
    IsTrans (Nat × CoffeeBeanPost) (feedOrder p) :=
  ⟨by intro a b c; unfold feedOrder; omega⟩

/-- Function `sortByCreatedAt` (`index.ts`, lines 41–42): a stable sort descending
by parsed `createdAt`.  The embedding decorates each post with its index,
sorts by the linear order `feedOrder` (descending timestamp, ties by
index), and drops the indices: this is exactly the result of a stable
sort under the comparator of the source. -/
def sortByCreatedAt (p : String → Option Int) (posts : List CoffeeBeanPost) :
    List CoffeeBeanPost :=
  (List.insertionSort (feedOrder p) posts.enum).map (·.2)

/-- Function `isCoffeeBeanPost` (`index.ts`, lines 28–29). -/
def isCoffeeBeanPost (post : CoffeeBeanPost) : Bool :=
  post.type == "coffee.outof.beanPost"

/-- Function `filterCoffeePosts` (`index.ts`, lines 38–39). -/
def filterCoffeePosts (posts : List CoffeeBeanPost) : List CoffeeBeanPost :=
  posts.filter isCoffeeBeanPost

/-- Semantics of `posts.slice(0, limit)` where `limit` may be `NaN` (`none`): JavaScript
`Array.prototype.slice` converts a `NaN` end to `0` (empty result), a
negative end counts from the end of the array (`max(length + end, 0)`),
and a nonnegative end truncates. -/
def jsSlice0 (posts : List CoffeeBeanPost) (limit : Option Int) : List CoffeeBeanPost :=
  match limit with
  | none => []
  | some k => if k < 0 then posts.take ((posts.length + k).toNat) else posts.take k.toNat

/-- A feed skeleton item (`index.ts`, lines 9–11). -/
structure FeedItem where
  post : String
deriving DecidableEq, Repr

/-- Function `formatFeedItems` (`index.ts`, lines 47–48). -/
def formatFeedItems (posts : List CoffeeBeanPost) : List FeedItem :=
  posts.map (fun post => ⟨post.uri⟩)

/-- Function `generateCoffeeFeed` (`index.ts`, lines 51–60): filter, sort, limit
(`limitFeedSize` at lines 44–45 is `posts.slice(0, limit)`), format. -/
def generateCoffeeFeed (p : String → Option Int) (posts : List CoffeeBeanPost)
    (limit : Option Int) : List FeedItem :=
  formatFeedItems (jsSlice0 (sortByCreatedAt p (filterCoffeePosts posts)) limit)

/-- Models the JavaScript builtin `parseInt(s)` (radix 10) on the inputs
this development exercises: an optional sign followed by the longest
leading digit run; `none` (`NaN`) when no digit is found.  (The builtin
additionally trims whitespace and recognises radix prefixes; neither is
exercised by the query strings of the source considered here.) -/
def jsParseInt (s : String) : Option Int :=
  let digits : List Char → Option Nat := fun cs =>
    let run := cs.takeWhile (·.isDigit)
    if run.isEmpty then none
    else some (run.foldl (fun acc c => acc * 10 + (c.toNat - '0'.toNat)) 0)
  match s.data with
  | '-' :: rest => (digits rest).map (fun n => -(n : Int))
  | '+' :: rest => (digits rest).map (fun n => (n : Int))
  | cs => (digits cs).map (fun n => (n : Int))

/-- Semantics of the parameter defaulting at `index.ts`, line 81:
`get` returns `null` when the parameter is absent, and both `null` and
the empty string are falsy. -/
def limitParamOrDefault (param : Option String) : String :=
  match param with
  | none => "50"
  | some s => if s == "" then "50" else s

/-- Semantics of `Math.min(x, 100)` where `x` may be `NaN`: `Math.min` propagates `NaN`. -/
def jsMin100 (x : Option Int) : Option Int :=
  x.map (fun n => min n 100)

/-- The effective limit computed by the feed endpoint (`index.ts`, line 81):
`Math.min(parseInt(url.searchParams.get('limit') || '50'), 100)`. -/
def effLimit (param : Option String) : Option Int :=
  jsMin100 (jsParseInt (limitParamOrDefault param))

/-- Response shape of the public feed endpoint (`index.ts`, lines 87–90). -/
structure FeedResponse where
  feed : List FeedItem
  cursor : Option String
deriving DecidableEq, Repr

/-- The response assembly of the feed skeleton endpoint for a given
effective limit (`index.ts`, lines 85–90): the cursor is the `post` of
the last feed item, or absent when the feed is empty. -/
def feedResponseWithLimit (p : String → Option Int) (posts : List CoffeeBeanPost)
    (limit : Option Int) : FeedResponse :=
  let feedItems := generateCoffeeFeed p posts limit
  ⟨feedItems, feedItems.getLast?.map (·.post)⟩

/-- The full `getFeedSkeleton` handler logic (`index.ts`, lines 81–90):
compute the effective limit from the query parameter, then assemble the
response. -/
def feedSkeletonResponse (p : String → Option Int) (posts : List CoffeeBeanPost)
    (limitParam : Option String) : FeedResponse :=
  feedResponseWithLimit p posts (effLimit limitParam)

/-! ### Auth verifier (`timeline.ts`, lines 38–129) -/

/-- Whether `needle` occurs as a contiguous run inside `hay`: the meaning
of JavaScript `hay.includes(needle)` on strings. -/
def subListOf (needle : List Char) : List Char → Bool
  | [] => needle.isEmpty
  | c :: rest => needle.isPrefixOf (c :: rest) || subListOf needle rest

/-- JavaScript `hay.includes(needle)`. -/
def jsIncludes (hay needle : String) : Bool :=
  subListOf needle.data hay.data

/-- The claims of a decoded JWT as `jose.decodeJwt` exposes them: each
claim may be absent (`undefined`). -/
structure JwtClaims where
  sub : Option String := none
  aud : Option String := none
  iss : Option String := none
  scope : Option String := none
  exp : Option Int := none
  iat : Option Int := none
deriving DecidableEq, Repr

/-- JavaScript truthiness of a possibly-absent string claim: absent and
the empty string are falsy. -/
def truthyStr (v : Option String) : Bool :=
  match v with
  | none => false
  | some s => !(s == "")

/-- JavaScript truthiness of a possibly-absent numeric claim: absent and
`0` are falsy. -/
def truthyInt (v : Option Int) : Bool :=
  match v with
  | none => false
  | some n => !(n == 0)

/-- Type `AuthResult` (`timeline.ts`, lines 15–22), restricted to the claim
checks: either the successful token claims or `(error, status)`. -/
inductive AuthResult where
  | ok (token : JwtClaims)
  | err (error : String) (status : Nat)
deriving DecidableEq, Repr

/-- The claim-validation core of `verifyAuthToken` (`timeline.ts`, lines
72–120), applied to the decoded JWT claims (decoding itself is the
external `jose` collaborator).  `now` is `Math.floor(Date.now() / 1000)`.
Note the expiry check `decoded.exp && decoded.exp < now`: a present but
zero `exp` is falsy in JavaScript, so it skips the expiry rejection. -/
def verifyDecodedClaims (now : Int) (decoded : JwtClaims) : AuthResult :=
  if !truthyStr decoded.sub || !truthyStr decoded.aud || !truthyStr decoded.iss then
    .err "Invalid token claims" 401
  else if truthyInt decoded.exp && decide (decoded.exp.getD 0 < now) then
    .err "Token expired" 401
  else if !"did:".data.isPrefixOf (decoded.sub.getD "").data then
    .err "Invalid DID format in subject" 401
  else if !truthyStr decoded.scope || !jsIncludes (decoded.scope.getD "") "atproto" then
    .err "Insufficient scope" 403
  else
    .ok decoded

/-! ### Record validator (`firehose.ts`, `processCoffeePost` lines 111–155
and `validateLocation` lines 157–161) -/

/-- An untyped decoded JavaScript value, as `cborToLexRecord` yields it.
`obj` is a key-value map; absent keys model `undefined`. -/
inductive JsVal where
  | str (s : String)
  | num (n : Int)
  | boolean (b : Bool)
  | null
  | obj (fields : List (String × JsVal))

/-- Field lookup on a decoded object: `record.k` is `undefined` (`none`)
when the key is absent. -/
def jsGet (fields : List (String × JsVal)) (k : String) : Option JsVal :=
  (fields.find? (fun kv => kv.1 == k)).map (·.2)

/-- `typeof v === 'string' ? v : undefined`: the optional-field
projection used for `beanName`, `origin`, `roastLevel`, `brewMethod`
(`firehose.ts`, lines 138–141). -/
def asString (v : Option JsVal) : Option String :=
  match v with
  | some (.str s) => some s
  | _ => none

/-- `typeof v === 'number' ? v : undefined`: the projection used for
`rating` (`firehose.ts`, line 142). -/
def asNum (v : Option JsVal) : Option Int :=
  match v with
  | some (.num n) => some n
  | _ => none

/-- The required-field check `if (!record.f || typeof record.f !==
'string') return` (`firehose.ts`, lines 128–129): the field passes only
when it is a nonempty string (the empty string is falsy, and every
non-string value either is falsy or fails the `typeof` test). -/
def requiredString (v : Option JsVal) : Option String :=
  match v with
  | some (.str s) => if s == "" then none else some s
  | _ => none

/-- Function `validateLocation` (`firehose.ts`, lines 157–161): `null` and
non-objects are rejected (`!location || typeof location !== 'object'`),
then both `lat` and `lng` must be strings; anything else yields no
location. -/
def validateLocation (location : Option JsVal) : Option GeoLocation :=
  match location with
  | some (.obj fields) =>
    match asString (jsGet fields "lat"), asString (jsGet fields "lng") with
    | some la, some ln => some ⟨la, ln⟩
    | _, _ => none
  | _ => none

/-- The validation-and-construction core of `processCoffeePost`
(`firehose.ts`, lines 125–144): check the `$type` discriminator, the
required `text` and `createdAt` fields, then build the post, keeping
each optional field only when it has the expected primitive type.
`repo`, `recPath` and `cidStr` come from the enclosing commit event
(`commit.repo`, `op.path`, `op.cid.toString()`). -/
def processCoffeePost (repo recPath cidStr : String)
    (record : List (String × JsVal)) : Option CoffeeBeanPost :=
  match jsGet record "$type" with
  | some (.str t) =>
    if t == "coffee.outof.beanPost" then
      match requiredString (jsGet record "text"),
            requiredString (jsGet record "createdAt") with
      | some text, some createdAt =>
        some { type := t
               uri := "at://" ++ repo ++ "/" ++ recPath
               cid := cidStr
               createdAt := createdAt
               text := text
               beanName := asString (jsGet record "beanName")
               origin := asString (jsGet record "origin")
               roastLevel := asString (jsGet record "roastLevel")
               brewMethod := asString (jsGet record "brewMethod")
               rating := asNum (jsGet record "rating")
               location := validateLocation (jsGet record "location") }
      | _, _ => none
    else none
  | _ => none

/-! ### Personalized timeline (`timeline.ts`, lines 132–194) -/

/-- Function `extractDidFromUri` (`timeline.ts`, lines 164–168): match the regex
`^at:\/\/(did:[^\/]+)` and return the capture (the `did:` segment up to
the first slash), or the empty string when the URI does not match. -/
def extractDidFromUri (uri : String) : String :=
  if "at://did:".data.isPrefixOf uri.data then
    let run := (uri.data.drop 9).takeWhile (· ≠ '/')
    if run.isEmpty then "" else "did:" ++ String.mk run
  else ""

/-- Wrap an integer into the signed 32-bit range: the effect of
JavaScript `x & x` (and of `<<` on its operand). -/
def toInt32 (x : Int) : Int :=
  (x + 2 ^ 31) % 2 ^ 32 - 2 ^ 31

/-- One loop iteration of `simpleHash` (`timeline.ts`, lines 186–194):
`hash = ((hash << 5) - hash) + charCode; hash = hash & hash`.  `hash` is
already a 32-bit integer on entry, `<<` wraps to 32 bits, and `& hash`
truncates the exact intermediate sum back to 32 bits. -/
def simpleHashStep (hash : Int) (c : Char) : Int :=
  toInt32 (toInt32 (hash * 32) - hash + c.toNat)

/-- Function `simpleHash` (`timeline.ts`, lines 186–194), including the final
`Math.abs`.  (`charCodeAt` yields UTF-16 units; DIDs are ASCII, for
which `Char.toNat` coincides.) -/
def simpleHash (s : String) : Nat :=
  (s.data.foldl simpleHashStep 0).natAbs

/-- Function `shouldIncludeFollowReason` (`timeline.ts`, lines 171–183): false when the author of the
post is the requesting user; otherwise the deterministic hash placeholder. -/
def shouldIncludeFollowReason (userDid : String) (post : CoffeeBeanPost) : Bool :=
  let authorDid := extractDidFromUri post.uri
  if authorDid == userDid then false
  else simpleHash (userDid ++ authorDid) % 3 == 0

/-- The `reason` annotation of a timeline item (`timeline.ts`, lines
26–29): the `$type` tag and the DID of the followed author. -/
structure FollowReason where
  type : String
  byDid : String
deriving DecidableEq, Repr

/-- Structure `TimelineFeedItem` (`timeline.ts`, lines 24–30). -/
structure TimelineFeedItem where
  post : String
  reason : Option FollowReason := none
deriving DecidableEq, Repr

/-- Function `generatePersonalizedTimeline` (`timeline.ts`, lines 132–161): filter
to coffee posts, sort by the same comparator as the public feed, slice
to the limit, then annotate each item with a follow reason when the
placeholder relationship function fires. -/
def generatePersonalizedTimeline (p : String → Option Int) (userDid : String)
    (posts : List CoffeeBeanPost) (limit : Option Int) : List TimelineFeedItem :=
  let coffeePosts :=
    jsSlice0 (sortByCreatedAt p (posts.filter (fun post => post.type == "coffee.outof.beanPost")))
      limit
  coffeePosts.map (fun post =>
    if shouldIncludeFollowReason userDid post then
      ⟨post.uri, some ⟨"coffee.outof.timeline#following", extractDidFromUri post.uri⟩⟩
    else ⟨post.uri, none⟩)

/-! ### Sample data used by witnesses and counterexamples -/

/-- Date parsing instance used by concrete witnesses: the `createdAt`
strings of the sample posts are decimal epoch-millisecond literals. -/
def sampleParse : String → Option Int := jsParseInt

/-- A well-formed sample post. -/
def samplePost : CoffeeBeanPost :=
  { type := "coffee.outof.beanPost", uri := "at://did:plc:alice/coffee.outof.beanPost/1",
    cid := "cid1", createdAt := "100", text := "nice beans" }

/-- A sample post whose `createdAt` does not parse as a date. -/
def badDatePost : CoffeeBeanPost :=
  { type := "coffee.outof.beanPost", uri := "at://did:plc:bob/coffee.outof.beanPost/9",
    cid := "cid9", createdAt := "not-a-date", text := "stale" }

/-! ### Claim theorems -/

/-- Helper: a duplicate-`uri` insertion returns `false`, leaves the store
unchanged, and performs no persistence write. -/
theorem addPost_of_dup (posts : List CoffeeBeanPost) (post : CoffeeBeanPost)
    (hl : ∃ q ∈ posts, q.uri = post.uri) :
    addPost posts post = ⟨false, posts, false⟩ := by
  obtain ⟨q, hq, he⟩ := hl
  unfold addPost
  cases hf : posts.find? (fun r => r.uri == post.uri) with
  | some r => rfl
  | none => exact absurd (List.find?_eq_none.mp hf q hq) (by simp [he])

/-- C2: inserting a record whose `uri` already exists in the store
returns `false` and leaves the store unchanged, with no persistence
write; and after any insertion of a record, inserting a record with the
same `uri` again is rejected and leaves the count unchanged. -/
theorem addPost_duplicate_uri_rejected (posts : List CoffeeBeanPost)
    (post : CoffeeBeanPost) :
    ((∃ q ∈ posts, q.uri = post.uri) → addPost posts post = ⟨false, posts, false⟩)
    ∧ addPost (addPost posts post).posts post = ⟨false, (addPost posts post).posts, false⟩
    ∧ getPostCount (addPost (addPost posts post).posts post).posts
        = getPostCount (addPost posts post).posts := by
  have hmem : ∃ q ∈ (addPost posts post).posts, q.uri = post.uri := by
    unfold addPost
    cases hf : posts.find? (fun r => r.uri == post.uri) with
    | some r =>
      refine ⟨r, ?_, ?_⟩
      · simpa using List.mem_of_find?_eq_some hf
      · simpa using List.find?_some hf
    | none => exact ⟨post, by simp, rfl⟩
  have h2 := addPost_of_dup _ post hmem
  exact ⟨addPost_of_dup posts post, h2, by rw [h2]⟩

/-- C2 witness: concrete duplicate insertions. -/
theorem addPost_duplicate_uri_rejected_witness :
    addPost [samplePost] samplePost = ⟨false, [samplePost], false⟩
    ∧ addPost (addPost [] samplePost).posts samplePost
        = ⟨false, (addPost [] samplePost).posts, false⟩ :=
  ⟨(addPost_duplicate_uri_rejected [samplePost] samplePost).1 ⟨samplePost, by simp, rfl⟩,
   (addPost_duplicate_uri_rejected [] samplePost).2.1⟩

/-- C9: starting from a store whose records have pairwise-distinct `uri`
values, insertion, the eviction sweep, and clearing all leave the
records with pairwise-distinct `uri` values. -/
theorem store_ops_preserve_uri_nodup (posts : List CoffeeBeanPost)
    (h : (posts.map (·.uri)).Nodup) :
    (∀ post, ((addPost posts post).posts.map (·.uri)).Nodup)
    ∧ (∀ (p : String → Option Int) (cutoff : Int),
        ((purgeOldPosts p cutoff posts).map (·.uri)).Nodup)
    ∧ ((clearPosts posts).map (·.uri)).Nodup := by
  refine ⟨?_, ?_, by simp [clearPosts]⟩
  · intro post
    unfold addPost
    cases hf : posts.find? (fun r => r.uri == post.uri) with
    | some r => simpa using h
    | none =>
      have hni : ∀ q ∈ posts, ¬ q.uri = post.uri := by
        intro q hq he
        exact absurd (List.find?_eq_none.mp hf q hq) (by simp [he])
      simpa [List.nodup_append] using ⟨h, hni⟩
  · intro p cutoff
    exact h.sublist ((List.filter_sublist posts).map (·.uri))

/-- C9 witness: a concrete two-record store with distinct `uri`s. -/
theorem store_ops_preserve_uri_nodup_witness :
    (((addPost [samplePost, badDatePost] samplePost).posts.map (·.uri)).Nodup)
    ∧ (((purgeOldPosts sampleParse 0 [samplePost, badDatePost]).map (·.uri)).Nodup) := by
  have h := store_ops_preserve_uri_nodup [samplePost, badDatePost] (by decide)
  exact ⟨h.1 samplePost, h.2.1 sampleParse 0⟩

/-- C1 counterexample: the eviction sweep does not retain a record whose
`createdAt` fails to parse — `new Date` on such a value is an Invalid
Date, every comparison with it is false, and the filter drops the
record.  (`sampleParse badDatePost.createdAt = none`, yet the sweep
removes `badDatePost`.) -/
theorem purge_retains_unparsable_false :
    ¬ ∀ (p : String → Option Int) (cutoff : Int) (posts : List CoffeeBeanPost)
        (post : CoffeeBeanPost), post ∈ posts → p post.createdAt = none →
        post ∈ purgeOldPosts p cutoff posts := by
  intro h
  have hmem := h sampleParse 0 [badDatePost] badDatePost (by simp) (by decide)
  have hempty : purgeOldPosts sampleParse 0 [badDatePost] = [] := by decide
  rw [hempty] at hmem
  exact absurd hmem (List.not_mem_nil _)

/-- C1 (amended): the eviction sweep keeps exactly the records whose
`createdAt` parses to a timestamp at or after `now` minus the retention
window; a record parsing earlier is removed, and a record whose
`createdAt` does not parse is removed as well (rather than retained);
the sweep itself never fails on such a record. -/
theorem purge_membership (p : String → Option Int) (cutoff : Int)
    (posts : List CoffeeBeanPost) (post : CoffeeBeanPost) :
    post ∈ purgeOldPosts p cutoff posts ↔
      post ∈ posts ∧ ∃ t, p post.createdAt = some t ∧ cutoff ≤ t := by
  unfold purgeOldPosts
  rw [List.mem_filter]
  refine and_congr_right fun _ => ?_
  unfold keepPost
  cases hp : p post.createdAt with
  | none => simp
  | some t => simp

/-- C1 witness: a record whose `createdAt` parses after the cutoff is
kept by the sweep. -/
theorem purge_membership_witness :
    samplePost ∈ purgeOldPosts sampleParse 50 [samplePost] :=
  (purge_membership sampleParse 50 [samplePost] samplePost).mpr
    ⟨by simp, 100, by decide, by decide⟩

/-- Helper: dropping the decoration of `enumFrom` recovers the list. -/
theorem enumFrom_map_snd_eq {α : Type} (n : Nat) (l : List α) :
    (List.enumFrom n l).map (·.2) = l := by
  induction l generalizing n with
  | nil => rfl
  | cons a l ih => simp [List.enumFrom, ih]

/-- C3: the index-decorated sort underlying `sortByCreatedAt` is a
permutation of the decorated snapshot that is sorted under `feedOrder`
(descending parsed timestamp, ties by original index), and dropping the
indices yields a permutation of the snapshot; in particular, for three
records created at `T`, `T+1`, `T+2`, assembling the feed with limit 2
returns exactly the two newest in descending order with the cursor equal
to the `uri` of the last (smallest-timestamp) returned item, and an
empty snapshot yields an empty page with no cursor. -/
theorem feed_ranking (p : String → Option Int) :
    (∀ posts : List CoffeeBeanPost,
      (∀ post ∈ posts, (p post.createdAt).isSome) →
      (List.insertionSort (feedOrder p) posts.enum).Perm posts.enum
      ∧ (List.insertionSort (feedOrder p) posts.enum).Pairwise (feedOrder p)
      ∧ (sortByCreatedAt p posts).Perm posts)
    ∧ (∀ (T : Int) (r0 r1 r2 : CoffeeBeanPost),
        isCoffeeBeanPost r0 = true → isCoffeeBeanPost r1 = true →
        isCoffeeBeanPost r2 = true →
        p r0.createdAt = some T → p r1.createdAt = some (T + 1) →
        p r2.createdAt = some (T + 2) →
        feedResponseWithLimit p [r0, r1, r2] (some 2)
          = ⟨[⟨r2.uri⟩, ⟨r1.uri⟩], some r1.uri⟩)
    ∧ (∀ limit, feedResponseWithLimit p [] limit = ⟨[], none⟩) := by
  refine ⟨?_, ?_, ?_⟩
  · intro posts _
    refine ⟨List.perm_insertionSort _ _, List.sorted_insertionSort _ _, ?_⟩
    have hp := (List.perm_insertionSort (feedOrder p) posts.enum).map (·.2)
    unfold sortByCreatedAt
    simpa [List.enum, enumFrom_map_snd_eq] using hp
  · intro T r0 r1 r2 hc0 hc1 hc2 hp0 hp1 hp2
    have k0 : jsKey p r0 = T := by simp [jsKey, hp0]
    have k1 : jsKey p r1 = T + 1 := by simp [jsKey, hp1]
    have k2 : jsKey p r2 = T + 2 := by simp [jsKey, hp2]
    have hfo12 : ¬ feedOrder p (1, r1) (2, r2) := by
      simp only [feedOrder, k1, k2]; omega
    have hfo02 : ¬ feedOrder p (0, r0) (2, r2) := by
      simp only [feedOrder, k0, k2]; omega
    have hfo01 : ¬ feedOrder p (0, r0) (1, r1) := by
      simp only [feedOrder, k0, k1]; omega
    have hfilter : filterCoffeePosts [r0, r1, r2] = [r0, r1, r2] := by
      simp [filterCoffeePosts, List.filter, hc0, hc1, hc2]
    have henum : ([r0, r1, r2] : List CoffeeBeanPost).enum
        = [(0, r0), (1, r1), (2, r2)] := by
      simp [List.enum, List.enumFrom]
    have hsort : sortByCreatedAt p [r0, r1, r2] = [r2, r1, r0] := by
      unfold sortByCreatedAt
      rw [henum]
      simp only [List.insertionSort, List.orderedInsert, if_neg hfo12, if_neg hfo02,
        if_neg hfo01]
      rfl
    unfold feedResponseWithLimit generateCoffeeFeed
    rw [hfilter, hsort]
    simp [jsSlice0, formatFeedItems]
  · intro limit
    cases limit with
    | none =>
      simp [feedResponseWithLimit, generateCoffeeFeed, jsSlice0, formatFeedItems]
    | some k =>
      simp [feedResponseWithLimit, generateCoffeeFeed, jsSlice0, formatFeedItems,
        sortByCreatedAt, filterCoffeePosts, List.enum, List.enumFrom,
        List.insertionSort]

/-- C3 witness: three concrete records created at 0, 1, 2 assembled with
limit 2, and the empty snapshot. -/
theorem feed_ranking_witness :
    feedResponseWithLimit sampleParse
      [{ samplePost with createdAt := "0", uri := "u0" },
       { samplePost with createdAt := "1", uri := "u1" },
       { samplePost with createdAt := "2", uri := "u2" }] (some 2)
      = ⟨[⟨"u2"⟩, ⟨"u1"⟩], some "u1"⟩
    ∧ feedResponseWithLimit sampleParse [] (some 2) = ⟨[], none⟩ :=
  ⟨(feed_ranking sampleParse).2.1 0
      { samplePost with createdAt := "0", uri := "u0" }
      { samplePost with createdAt := "1", uri := "u1" }
      { samplePost with createdAt := "2", uri := "u2" }
      (by decide) (by decide) (by decide) (by decide) (by decide) (by decide),
   (feed_ranking sampleParse).2.2 (some 2)⟩

/-- Token claims with well-formed subject, audience, issuer and scope
whose `exp` is `0`, an instant in the past. -/
def expZeroClaims : JwtClaims :=
  { sub := some "did:plc:alice", aud := some "aud", iss := some "iss",
    scope := some "atproto", exp := some 0 }

/-- C4 counterexample: token claims with nonempty subject, audience and
issuer whose `exp` is `0` — in the past relative to `now = 10` — are not
rejected as expired: in `decoded.exp && decoded.exp < now` the value `0`
is falsy, so the expiry branch is skipped and verification succeeds. -/
theorem verify_exp_zero_counterexample :
    (0 : Int) < 10
    ∧ verifyDecodedClaims 10 expZeroClaims = .ok expZeroClaims :=
  ⟨by decide, by decide⟩

/-- C4 (amended): for token claims with nonempty subject, audience and
issuer: a present and nonzero `exp` in the past is rejected with reason
"Token expired" and status 401; and when no expiry rejection applies,
the subject has the DID prefix, and the scope does not contain the
required capability marker, the token is rejected with status 403 and
reason "Insufficient scope". -/
theorem verify_expiry_and_scope (now : Int) (c : JwtClaims) (s a i : String)
    (hs : c.sub = some s) (hs0 : s ≠ "") (ha : c.aud = some a) (ha0 : a ≠ "")
    (hi : c.iss = some i) (hi0 : i ≠ "") :
    (∀ e, c.exp = some e → e ≠ 0 → e < now →
        verifyDecodedClaims now c = .err "Token expired" 401)
    ∧ ((∀ e, c.exp = some e → e = 0 ∨ now ≤ e) →
        "did:".data.isPrefixOf s.data = true →
        (∀ sc, c.scope = some sc → jsIncludes sc "atproto" = false) →
        verifyDecodedClaims now c = .err "Insufficient scope" 403) := by
  have hts : truthyStr c.sub = true := by simp [truthyStr, hs, hs0]
  have hta : truthyStr c.aud = true := by simp [truthyStr, ha, ha0]
  have hti : truthyStr c.iss = true := by simp [truthyStr, hi, hi0]
  constructor
  · intro e he hne hlt
    have hcond : (truthyInt c.exp && decide (c.exp.getD 0 < now)) = true := by
      simp [truthyInt, he, hne, hlt]
    simp [verifyDecodedClaims, hts, hta, hti, hcond]
  · intro hnex hdid hsc
    have hcond : (truthyInt c.exp && decide (c.exp.getD 0 < now)) = false := by
      cases hx : c.exp with
      | none => simp [truthyInt]
      | some e =>
        rcases hnex e hx with h0 | hge
        · simp [truthyInt, h0]
        · simp [truthyInt]
          omega
    have hscope : (!truthyStr c.scope
        || !jsIncludes (c.scope.getD "") "atproto") = true := by
      cases hy : c.scope with
      | none => simp [truthyStr]
      | some sc => simp [truthyStr, hsc sc hy]
    have hts2 : truthyStr (some s) = true := by simp [truthyStr, hs0]
    simp [verifyDecodedClaims, hts, hta, hti, hcond, hs, hdid, hscope, hts2]

/-- C4 witness: a token expired 5 seconds before `now = 10`, and an
unexpired token whose scope lacks the marker. -/
theorem verify_expiry_and_scope_witness :
    verifyDecodedClaims 10
      { sub := some "did:plc:alice", aud := some "aud", iss := some "iss",
        scope := some "atproto", exp := some 5 } = .err "Token expired" 401
    ∧ verifyDecodedClaims 10
      { sub := some "did:plc:alice", aud := some "aud", iss := some "iss",
        scope := some "openid", exp := some 99 } = .err "Insufficient scope" 403 :=
  ⟨(verify_expiry_and_scope 10 _ "did:plc:alice" "aud" "iss" rfl (by decide) rfl
      (by decide) rfl (by decide)).1 5 rfl (by decide) (by decide),
   (verify_expiry_and_scope 10 _ "did:plc:alice" "aud" "iss" rfl (by decide) rfl
      (by decide) rfl (by decide)).2
     (fun e he => by injection he with h; omega)
     (by decide)
     (fun sc h => by injection h with h; rw [← h]; decide)⟩

/-- A family of sample posts with distinct `uri` values and a shared
valid `createdAt`. -/
def mkSamplePost (i : Nat) : CoffeeBeanPost :=
  { type := "coffee.outof.beanPost", uri := "u" ++ toString i, cid := "c",
    createdAt := "7", text := "t" }

set_option maxRecDepth 40000 in
/-- C5 counterexample: a request with query parameter `limit=-1` against
a 102-record store returns 101 items: `parseInt` gives `-1`, which
passes `Math.min(-1, 100)` unchanged, and `slice(0, -1)` keeps all but
the last record — more than 100 items on one page. -/
theorem feed_page_over_100_counterexample :
    100 < (feedSkeletonResponse sampleParse ((List.range 102).map mkSamplePost)
      (some "-1")).feed.length := by decide

/-- C5 (amended): the effective page size defaults to 50 when no limit
parameter is supplied; a supplied limit parsing to more than 100 is
silently clamped to 100 rather than rejected; and whenever the effective
limit is a nonnegative number the returned page has at most 100 items.
(A negative supplied limit is not clamped from below: `slice(0, k)` with
negative `k` counts from the end of the array and can return more than
100 items.) -/
theorem feed_limit_default_and_clamp :
    effLimit none = some 50
    ∧ (∀ s n, jsParseInt s = some n → 100 < n → effLimit (some s) = some 100)
    ∧ (∀ (p : String → Option Int) (posts : List CoffeeBeanPost)
        (param : Option String),
        (∀ k, effLimit param = some k → 0 ≤ k) →
        (feedSkeletonResponse p posts param).feed.length ≤ 100) := by
  refine ⟨by decide, ?_, ?_⟩
  · intro s n hp hn
    have hs : (s == "") = false := by
      cases hbe : s == "" with
      | false => rfl
      | true =>
        have he : s = "" := by simpa using hbe
        rw [he] at hp
        rw [show jsParseInt "" = none from rfl] at hp
        exact Option.noConfusion hp
    simp [effLimit, limitParamOrDefault, hs, hp, jsMin100,
      min_eq_right (le_of_lt hn)]
  · intro p posts param hk
    cases he : effLimit param with
    | none =>
      simp [feedSkeletonResponse, feedResponseWithLimit, generateCoffeeFeed,
        formatFeedItems, jsSlice0, he]
    | some k =>
      have hk0 : 0 ≤ k := hk k he
      have hk100 : k ≤ 100 := by
        unfold effLimit jsMin100 at he
        cases hx : jsParseInt (limitParamOrDefault param) with
        | none => rw [hx] at he; exact Option.noConfusion he
        | some n =>
          rw [hx] at he
          have h : min n 100 = k := by simpa using he
          omega
      simp only [feedSkeletonResponse, feedResponseWithLimit, generateCoffeeFeed,
        formatFeedItems, jsSlice0, he, if_neg (not_lt.mpr hk0), List.length_map,
        List.length_take]
      omega

/-- C5 witness: a supplied limit of 250 is clamped to 100 and the page
stays within 100 items. -/
theorem feed_limit_default_and_clamp_witness :
    effLimit (some "250") = some 100
    ∧ (feedSkeletonResponse sampleParse [samplePost] (some "250")).feed.length ≤ 100 :=
  ⟨feed_limit_default_and_clamp.2.1 "250" 250 (by decide) (by decide),
   feed_limit_default_and_clamp.2.2 sampleParse [samplePost] (some "250")
     (fun k hk => by
       have h : effLimit (some "250") = some 100 := by decide
       rw [h] at hk
       injection hk with h2
       omega)⟩

/-- C10: with a `limit` query parameter that does not parse as an
integer, the computed limit is `NaN` and the endpoint returns an empty
feed with no cursor, instead of falling back to the default page size
of 50. -/
theorem feed_nan_limit_empty (p : String → Option Int)
    (posts : List CoffeeBeanPost) (_hne : posts ≠ [])
    (_hvalid : ∀ post ∈ posts,
      isCoffeeBeanPost post = true ∧ (p post.createdAt).isSome) :
    effLimit (some "abc") = none
    ∧ feedSkeletonResponse p posts (some "abc") = ⟨[], none⟩ := by
  have h : effLimit (some "abc") = none := by decide
  refine ⟨h, ?_⟩
  simp [feedSkeletonResponse, h, feedResponseWithLimit, generateCoffeeFeed,
    jsSlice0, formatFeedItems]

/-- C10 witness: a concrete one-record snapshot with `limit=abc`. -/
theorem feed_nan_limit_empty_witness :
    feedSkeletonResponse sampleParse [samplePost] (some "abc") = ⟨[], none⟩ :=
  (feed_nan_limit_empty sampleParse [samplePost] (by decide) (by decide)).2

/-- Helper: `requiredString` is `none` whenever the field is absent or
not a string. -/
theorem requiredString_eq_none_of_not_str (v : Option JsVal)
    (hv : ∀ s, v ≠ some (.str s)) : requiredString v = none := by
  cases v with
  | none => rfl
  | some w =>
    cases w with
    | str s => exact absurd rfl (hv s)
    | num n => rfl
    | boolean b => rfl
    | null => rfl
    | obj fields => rfl

/-- Helper: the validator rejects whenever the required `text` check
yields nothing. -/
theorem processCoffeePost_none_of_text (repo recPath cidStr : String)
    (record : List (String × JsVal))
    (h : requiredString (jsGet record "text") = none) :
    processCoffeePost repo recPath cidStr record = none := by
  unfold processCoffeePost
  split
  · split
    · rw [h]
    · rfl
  · rfl

/-- Helper: the validator rejects whenever the required `createdAt`
check yields nothing. -/
theorem processCoffeePost_none_of_createdAt (repo recPath cidStr : String)
    (record : List (String × JsVal))
    (h : requiredString (jsGet record "createdAt") = none) :
    processCoffeePost repo recPath cidStr record = none := by
  unfold processCoffeePost
  split
  · split
    · rw [h]
      split
      · next ht hc => exact absurd hc.symm (by simp)
      · rfl
    · rfl
  · rfl

/-- C6 counterexample: a payload carrying only the discriminator, a
string `text` and a string `createdAt` is nevertheless rejected when
`text` is the empty string, because `!record.text` treats the empty
string as falsy. -/
theorem validator_empty_text_counterexample :
    processCoffeePost "repo" "path" "cid"
      [("$type", .str "coffee.outof.beanPost"), ("text", .str ""),
       ("createdAt", .str "2024-01-01T00:00:00Z")] = none := by decide

/-- C6 (amended): the validator rejects a payload whenever `text` or
`createdAt` is missing, not a string, or the empty string, regardless of
other fields; and it accepts a payload containing only the
discriminator, a nonempty string `text` and a nonempty string
`createdAt`. -/
theorem validator_required_fields (repo recPath cidStr : String)
    (record : List (String × JsVal)) :
    ((∀ s, jsGet record "text" ≠ some (.str s)) →
      processCoffeePost repo recPath cidStr record = none)
    ∧ ((∀ s, jsGet record "createdAt" ≠ some (.str s)) →
      processCoffeePost repo recPath cidStr record = none)
    ∧ (jsGet record "text" = some (.str "") →
      processCoffeePost repo recPath cidStr record = none)
    ∧ (jsGet record "createdAt" = some (.str "") →
      processCoffeePost repo recPath cidStr record = none)
    ∧ (∀ t c, t ≠ "" → c ≠ "" →
        (processCoffeePost repo recPath cidStr
          [("$type", .str "coffee.outof.beanPost"), ("text", .str t),
           ("createdAt", .str c)]).isSome = true) := by
  refine ⟨?_, ?_, ?_, ?_, ?_⟩
  · intro hv
    exact processCoffeePost_none_of_text _ _ _ _
      (requiredString_eq_none_of_not_str _ hv)
  · intro hv
    exact processCoffeePost_none_of_createdAt _ _ _ _
      (requiredString_eq_none_of_not_str _ hv)
  · intro hv
    exact processCoffeePost_none_of_text _ _ _ _ (by rw [hv]; rfl)
  · intro hv
    exact processCoffeePost_none_of_createdAt _ _ _ _ (by rw [hv]; rfl)
  · intro t c ht hc
    simp [processCoffeePost, jsGet, List.find?, requiredString, ht, hc]

/-- C6 witness: a minimal payload with nonempty `text` and `createdAt`
is accepted, and a payload whose `text` is a number is rejected. -/
theorem validator_required_fields_witness :
    (processCoffeePost "r" "p" "c"
      [("$type", .str "coffee.outof.beanPost"), ("text", .str "hi"),
       ("createdAt", .str "2024-01-01")]).isSome = true
    ∧ processCoffeePost "r" "p" "c"
      [("$type", .str "coffee.outof.beanPost"), ("text", .num 3),
       ("createdAt", .str "2024-01-01")] = none :=
  ⟨(validator_required_fields "r" "p" "c"
      [("$type", .str "coffee.outof.beanPost"), ("text", .str "hi"),
       ("createdAt", .str "2024-01-01")]).2.2.2.2 "hi" "2024-01-01"
      (by decide) (by decide),
   (validator_required_fields "r" "p" "c"
      [("$type", .str "coffee.outof.beanPost"), ("text", .num 3),
       ("createdAt", .str "2024-01-01")]).1
      (fun s hs => by rw [show jsGet
        [("$type", JsVal.str "coffee.outof.beanPost"), ("text", JsVal.num 3),
         ("createdAt", JsVal.str "2024-01-01")] "text" = some (.num 3)
        from rfl] at hs; exact absurd hs (by simp))⟩

/-- Helper: `asString` succeeds exactly on string values. -/
theorem asString_eq_some (v : Option JsVal) (s : String) :
    asString v = some s ↔ v = some (.str s) := by
  cases v with
  | none => simp [asString]
  | some w => cases w <;> simp [asString]

/-- Helper: `asNum` succeeds exactly on numeric values. -/
theorem asNum_eq_some (v : Option JsVal) (n : Int) :
    asNum v = some n ↔ v = some (.num n) := by
  cases v with
  | none => simp [asNum]
  | some w => cases w <;> simp [asNum]

/-- Helper: `validateLocation` yields a location exactly when the value
is an object with string `lat` and `lng` fields. -/
theorem validateLocation_eq_some (v : Option JsVal) (la ln : String) :
    validateLocation v = some ⟨la, ln⟩ ↔
      ∃ fields, v = some (.obj fields)
        ∧ jsGet fields "lat" = some (.str la)
        ∧ jsGet fields "lng" = some (.str ln) := by
  cases v with
  | none => simp [validateLocation]
  | some w =>
    cases w with
    | obj fields =>
      unfold validateLocation
      cases h1 : asString (jsGet fields "lat") with
      | none => simp [← asString_eq_some, h1]
      | some la2 =>
        cases h2 : asString (jsGet fields "lng") with
        | none => simp [← asString_eq_some, h1, h2]
        | some ln2 =>
          rw [asString_eq_some] at h1 h2
          simp [h1, h2, asString, GeoLocation.mk.injEq, eq_comm]
    | str s => simp [validateLocation]
    | num n => simp [validateLocation]
    | boolean b => simp [validateLocation]
    | null => simp [validateLocation]

/-- C7: on any accepted payload, each optional field appears on the
stored record exactly when it was present with the expected primitive
type (so a type-mismatched optional field is dropped while the record is
still accepted), and a location is stored exactly when the `location`
value is an object with both `lat` and `lng` present as strings — never
a partial location. -/
theorem validator_optional_fields (repo recPath cidStr : String)
    (record : List (String × JsVal)) (post : CoffeeBeanPost)
    (h : processCoffeePost repo recPath cidStr record = some post) :
    (∀ s, post.beanName = some s ↔ jsGet record "beanName" = some (.str s))
    ∧ (∀ s, post.origin = some s ↔ jsGet record "origin" = some (.str s))
    ∧ (∀ s, post.roastLevel = some s ↔ jsGet record "roastLevel" = some (.str s))
    ∧ (∀ s, post.brewMethod = some s ↔ jsGet record "brewMethod" = some (.str s))
    ∧ (∀ n, post.rating = some n ↔ jsGet record "rating" = some (.num n))
    ∧ (∀ la ln, post.location = some ⟨la, ln⟩ ↔
        ∃ fields, jsGet record "location" = some (.obj fields)
          ∧ jsGet fields "lat" = some (.str la)
          ∧ jsGet fields "lng" = some (.str ln)) := by
  unfold processCoffeePost at h
  split at h
  · split at h
    · split at h
      · injection h with h
        subst h
        refine ⟨?_, ?_, ?_, ?_, ?_, ?_⟩
        · intro s; exact asString_eq_some _ s
        · intro s; exact asString_eq_some _ s
        · intro s; exact asString_eq_some _ s
        · intro s; exact asString_eq_some _ s
        · intro n; exact asNum_eq_some _ n
        · intro la ln; exact validateLocation_eq_some _ la ln
      · exact absurd h (by simp)
    · exact absurd h (by simp)
  · exact absurd h (by simp)

/-- A payload with a mistyped `rating`, a half-specified `location`, and
a well-typed `beanName`. -/
def mismatchRecord : List (String × JsVal) :=
  [("$type", .str "coffee.outof.beanPost"), ("text", .str "hi"),
   ("createdAt", .str "2024"), ("beanName", .str "Geisha"),
   ("rating", .str "nine"), ("location", .obj [("lat", .str "1.0")])]

/-- The record the validator produces from `mismatchRecord`: `rating`
and `location` are dropped, `beanName` is kept. -/
def mismatchPost : CoffeeBeanPost :=
  { type := "coffee.outof.beanPost", uri := "at://r/p", cid := "c",
    createdAt := "2024", text := "hi", beanName := some "Geisha" }

/-- C7 witness: the accepted `mismatchRecord` keeps `beanName` exactly
because it was present as a string. -/
theorem validator_optional_fields_witness :
    jsGet mismatchRecord "beanName" = some (.str "Geisha") :=
  ((validator_optional_fields "r" "p" "c" mismatchRecord mismatchPost
    (by decide)).1 "Geisha").mp (by decide)

/-- C8: no item of the personalized timeline whose post author identity
(derived from its URI) equals the requesting identity carries a
follow reason. -/
theorem timeline_no_self_follow_reason (p : String → Option Int)
    (userDid : String) (posts : List CoffeeBeanPost) (limit : Option Int)
    (item : TimelineFeedItem)
    (hmem : item ∈ generatePersonalizedTimeline p userDid posts limit)
    (hauthor : extractDidFromUri item.post = userDid) :
    item.reason = none := by
  unfold generatePersonalizedTimeline at hmem
  obtain ⟨post, hpost, hitem⟩ := List.mem_map.mp hmem
  have hpuri : item.post = post.uri := by
    rw [← hitem]
    split <;> rfl
  have hfalse : shouldIncludeFollowReason userDid post = false := by
    unfold shouldIncludeFollowReason
    rw [hpuri] at hauthor
    simp [hauthor]
  rw [← hitem]
  simp [hfalse]

/-- C8 witness: the requesting user of `samplePost` sees their own post
without a follow reason. -/
theorem timeline_no_self_follow_reason_witness :
    (⟨samplePost.uri, none⟩ : TimelineFeedItem).reason = none :=
  timeline_no_self_follow_reason sampleParse "did:plc:alice" [samplePost]
    (some 50) ⟨samplePost.uri, none⟩ (by decide) (by decide)
